import Mathlib

/-!
Verification development for the rustyscript embedding layer.

The `ext/websocket` module is embedded directly from `src/ext/websocket/mod.rs`.
The orchestration layer (Runtime, Module Registry, Function Bridge, Value
Bridge, Worker) is declared in `src/lib.rs` but its defining modules are not
part of the sources at hand, so those components are modelled from the
specification's words; each such definition is marked `Modelled from the
spec:` in its doc comment.
-/

namespace Rustyscript

/-! ## Embedded from src/ext/websocket/mod.rs -/

/-- Opaque stand-in for `Arc<dyn RootCertStoreProvider>` (deno_tls): the
embedding only ever passes the value through, so an abstract identifier
suffices. -/
structure RootCertStoreProvider where
  id : Nat
deriving DecidableEq, Repr

/-- Embedded from `WebSocketOptions` in `src/ext/websocket/mod.rs` (lines
16-20): the three construction options of the websocket extension. -/
structure WebSocketOptions where
  user_agent : String
  root_cert_store_provider : Option RootCertStoreProvider
  unsafely_ignore_certificate_errors : Option (List String)
deriving DecidableEq, Repr

/-- Embedded from `impl Default for WebSocketOptions` (lines 22-30). -/
def WebSocketOptions.default : WebSocketOptions :=
  { user_agent := ""
    root_cert_store_provider := none
    unsafely_ignore_certificate_errors := none }

/-- The `Permissions` unit type of `crate::ext::web`, the receiver of the
`WebSocketPermissions` impl in `src/ext/websocket/mod.rs`. Its own module is
not among the sources; here it only serves as the receiver state. -/
inductive Permissions where
  | mk
deriving DecidableEq, Repr

/-- Embedded from `impl WebSocketPermissions for Permissions` (lines 32-36):
`check_net_url(&mut self, _url, _api_name)` returns `Ok(())` and leaves the
receiver untouched. Errors are modelled as strings (`AnyError`). -/
def Permissions.check_net_url (self : Permissions) (_url : String)
    (_api_name : String) : Except String Unit × Permissions :=
  (Except.ok (), self)

/-- Whether an extension is built with `init_ops_and_esm` (module code shipped
alongside the ops) or with `init_ops` (snapshot variant). -/
inductive InitMode where
  | ops_and_esm
  | ops_only
deriving DecidableEq, Repr

/-- A deno `Extension` value as far as `src/ext/websocket/mod.rs` constructs
one: either the upstream `deno_websocket` extension carrying the three option
fields it was built from, or the crate's own `init_websocket` extension. -/
inductive Extension where
  | deno_websocket (mode : InitMode) (user_agent : String)
      (root_cert_store_provider : Option RootCertStoreProvider)
      (unsafely_ignore_certificate_errors : Option (List String))
  | init_websocket (mode : InitMode)
deriving DecidableEq, Repr

/-- Embedded from `extensions` (lines 38-47): `deno_websocket` built from the
three option fields, then `init_websocket`, both via `init_ops_and_esm`. -/
def extensions (options : WebSocketOptions) : List Extension :=
  [ Extension.deno_websocket InitMode.ops_and_esm options.user_agent
      options.root_cert_store_provider options.unsafely_ignore_certificate_errors,
    Extension.init_websocket InitMode.ops_and_esm ]

/-- Embedded from `snapshot_extensions` (lines 49-58): the same two extensions
in the same order, built via `init_ops`. -/
def snapshot_extensions (options : WebSocketOptions) : List Extension :=
  [ Extension.deno_websocket InitMode.ops_only options.user_agent
      options.root_cert_store_provider options.unsafely_ignore_certificate_errors,
    Extension.init_websocket InitMode.ops_only ]

/-- The option fields a `deno_websocket` extension value was constructed from,
in constructor-argument order; `none` for `init_websocket`. -/
def Extension.wsArgs :
    Extension → Option (String × Option RootCertStoreProvider × Option (List String))
  | .deno_websocket _ ua rcsp uice => some (ua, rcsp, uice)
  | .init_websocket _ => none

/-! ## Value Bridge, modelled from the spec

Modelled from the spec: the Value Bridge (§2, §6) and its boundary format.
The format supports null, boolean, number, string, ordered sequence and
string-keyed mapping; values cross the boundary fully serialized (§3,
invariant c) as a self-describing token stream. Numbers are modelled with an
integer payload (the engine's numeric tower is out of scope for the shallow
embedding). -/

mutual

/-- Modelled from the spec: a host-side boundary value (§6): null, boolean,
number, string, ordered sequence, or string-keyed mapping. -/
inductive JsonValue where
  | null
  | boolean (b : Bool)
  | number (n : Int)
  | str (s : String)
  | arr (items : JsonArray)
  | obj (entries : JsonObject)

/-- An ordered sequence of boundary values. -/
inductive JsonArray where
  | nil
  | cons (head : JsonValue) (tail : JsonArray)

/-- A string-keyed mapping of boundary values (entry order kept). -/
inductive JsonObject where
  | nil
  | cons (key : String) (value : JsonValue) (tail : JsonObject)

end

/-- Modelled from the spec: one token of the self-describing serialized form a
value takes while crossing the host/guest boundary. -/
inductive Token where
  | tnull
  | tbool (b : Bool)
  | tnum (n : Int)
  | tstr (s : String)
  | lbrack
  | rbrack
  | lbrace
  | rbrace
deriving DecidableEq, Repr

mutual

/-- Modelled from the spec: host-to-guest direction of the Value Bridge — a
value is fully serialized into the self-describing token stream. -/
def serializeValue : JsonValue → List Token
  | .null => [Token.tnull]
  | .boolean b => [Token.tbool b]
  | .number n => [Token.tnum n]
  | .str s => [Token.tstr s]
  | .arr items => Token.lbrack :: serializeArray items ++ [Token.rbrack]
  | .obj entries => Token.lbrace :: serializeObject entries ++ [Token.rbrace]

/-- Serialized form of a sequence's elements (delimiters added by the caller). -/
def serializeArray : JsonArray → List Token
  | .nil => []
  | .cons v rest => serializeValue v ++ serializeArray rest

/-- Serialized form of a mapping's entries: each key as a string token, then
the serialized value. -/
def serializeObject : JsonObject → List Token
  | .nil => []
  | .cons k v rest => Token.tstr k :: (serializeValue v ++ serializeObject rest)

end

mutual

/-- Modelled from the spec: guest-to-host direction of the Value Bridge — one
value is read back off the token stream; `fuel` bounds the recursion depth. -/
def parseValue : Nat → List Token → Option (JsonValue × List Token)
  | 0, _ => none
  | _ + 1, [] => none
  | fuel + 1, t :: rest =>
    match t with
    | Token.tnull => some (JsonValue.null, rest)
    | Token.tbool b => some (JsonValue.boolean b, rest)
    | Token.tnum n => some (JsonValue.number n, rest)
    | Token.tstr s => some (JsonValue.str s, rest)
    | Token.lbrack =>
      match parseArray fuel rest with
      | some (items, rest') => some (JsonValue.arr items, rest')
      | none => none
    | Token.lbrace =>
      match parseObject fuel rest with
      | some (entries, rest') => some (JsonValue.obj entries, rest')
      | none => none
    | _ => none

/-- Reads sequence elements up to the closing delimiter. -/
def parseArray : Nat → List Token → Option (JsonArray × List Token)
  | 0, _ => none
  | _ + 1, [] => none
  | _ + 1, Token.rbrack :: rest => some (JsonArray.nil, rest)
  | fuel + 1, ts =>
    match parseValue fuel ts with
    | some (v, rest) =>
      match parseArray fuel rest with
      | some (vs, rest') => some (JsonArray.cons v vs, rest')
      | none => none
    | none => none

/-- Reads mapping entries (key token, then value) up to the closing delimiter. -/
def parseObject : Nat → List Token → Option (JsonObject × List Token)
  | 0, _ => none
  | _ + 1, [] => none
  | _ + 1, Token.rbrace :: rest => some (JsonObject.nil, rest)
  | fuel + 1, Token.tstr k :: ts =>
    match parseValue fuel ts with
    | some (v, rest) =>
      match parseObject fuel rest with
      | some (es, rest') => some (JsonObject.cons k v es, rest')
      | none => none
    | none => none
  | _ + 1, _ => none

end

/-- Modelled from the spec: deserialize a full token stream back into a host
value; the stream must be consumed exactly. -/
def deserialize (wire : List Token) : Option JsonValue :=
  match parseValue (wire.length + 1) wire with
  | some (v, []) => some v
  | _ => none

/-- Modelled from the spec: a guest identity export — the serialized argument
comes back unchanged (§8, round-trip property; values cross the boundary only
in serialized form). -/
def guestIdentity (wire : List Token) : List Token := wire

/-! ## Error taxonomy, modelled from the spec (§7) -/

/-- Modelled from the spec: the error taxonomy of §7. `functionNotFound`
stands for the unnamed "guest function not found" error of §4.2 ("each produce
a distinct error"). -/
inductive Error where
  | moduleNotFound (specifier : String)
  | compileError
  | guestException (msg : String)
  | timeout
  | permissionDenied
  | missingEntrypoint
  | arityOrTypeMismatch
  | serializationError
  | terminated
  | workerUnavailable
  | functionNotFound (name : String)
deriving DecidableEq, Repr

/-! ## Module Registry, modelled from the spec (§4.1, §3) -/

/-- Modelled from the spec: an import specifier as the resolution policy of
§4.1 classifies it — relative (against the loading module's location), bare
(against already-registered modules), filesystem-backed or network-backed
(each gated on a capability extension). -/
inductive Specifier where
  | relative (path : String)
  | bare (name : String)
  | fsPath (path : String)
  | netUrl (url : String)
deriving DecidableEq, Repr

/-- Modelled from the spec: a capability-extension class relevant to import
resolution and guest APIs (§6): filesystem or network. -/
inductive Capability where
  | filesystem
  | network
deriving DecidableEq, Repr

/-- Modelled from the spec: `RuntimeOptions` (§4.3 `new(options)`, §6) — the
deadline, the optional default entrypoint name, and which capability
extensions were registered at construction time. -/
structure RuntimeOptions where
  timeout : Nat
  default_entrypoint : Option String
  fsEnabled : Bool
  netEnabled : Bool
deriving DecidableEq, Repr

/-- Whether the capability extension of the given class was registered at
construction time. -/
def RuntimeOptions.capabilityEnabled (opts : RuntimeOptions) : Capability → Bool
  | Capability.filesystem => opts.fsEnabled
  | Capability.network => opts.netEnabled

/-- The capability class an import specifier is gated on, if any. -/
def Specifier.capability : Specifier → Option Capability
  | .fsPath _ => some Capability.filesystem
  | .netUrl _ => some Capability.network
  | _ => none

/-- Modelled from the spec: a `Module` (§3) — identity (specifier), source
text, and the imports and exports the engine finds in that source (the engine
itself is out of scope, so they are carried explicitly). -/
structure Module where
  specifier : String
  source : String
  imports : List Specifier
  exports : List String
deriving DecidableEq, Repr

/-- Modelled from the spec: a `ModuleHandle` (§3) — the result of registering
a module in an execution context: an opaque reference (instantiation id) plus
the exported symbol names. -/
structure ModuleInstance where
  instanceId : Nat
  exports : List String
deriving DecidableEq, Repr

/-- Modelled from the spec: the Module Registry's resolved-module table (§3,
§4.1): each canonical specifier maps to its one instantiation; `nextId` feeds
fresh instantiations; `moduleState` is the module-level mutable state cell of
each instantiation (zero-initialized when the module is instantiated). -/
structure Registry where
  table : List (String × ModuleInstance)
  nextId : Nat
  moduleState : Nat → Int

/-- The registry of a freshly constructed Runtime: nothing resolved yet. -/
def Registry.empty : Registry :=
  { table := [], nextId := 0, moduleState := fun _ => 0 }

/-- The instantiation already recorded for a canonical specifier, if any. -/
def Registry.lookup (reg : Registry) (spec : String) : Option ModuleInstance :=
  (reg.table.find? (fun e => e.fst == spec)).map Prod.snd

/-- Modelled from the spec: the resolution policy of §4.1 — relative
specifiers resolve against the loading module's location, bare specifiers
against already-registered modules (else `ModuleNotFound`), filesystem and
network specifiers only when the corresponding capability extension is
enabled (else `PermissionDenied`). -/
def resolveSpecifier (opts : RuntimeOptions) (base : String) (reg : Registry) :
    Specifier → Except Error String
  | .relative p => Except.ok (base ++ "/" ++ p)
  | .bare n =>
    if (reg.table.map Prod.fst).contains n then Except.ok n
    else Except.error (Error.moduleNotFound n)
  | .fsPath p =>
    if opts.fsEnabled then Except.ok ("file://" ++ p)
    else Except.error Error.permissionDenied
  | .netUrl u =>
    if opts.netEnabled then Except.ok u
    else Except.error Error.permissionDenied

/-- Resolves a module's imports in order; the first failure aborts the load. -/
def resolveImports (opts : RuntimeOptions) (base : String) (reg : Registry) :
    List Specifier → Except Error (List String)
  | [] => Except.ok []
  | s :: rest =>
    match resolveSpecifier opts base reg s with
    | Except.error e => Except.error e
    | Except.ok c =>
      match resolveImports opts base reg rest with
      | Except.error e => Except.error e
      | Except.ok cs => Except.ok (c :: cs)

/-- Modelled from the spec: `load(module)` of §4.1. A specifier already in the
resolved-module table returns the existing instantiation unchanged (module
memoization); otherwise the module's imports are resolved first — any failure
surfaces that error and leaves the table untouched — and only then is the
module compiled and instantiated (fresh id, zero-initialized module state) and
recorded in the table. The registry after the call is always returned, so an
error observably leaves it unchanged. -/
def Registry.load (reg : Registry) (opts : RuntimeOptions) (m : Module) :
    Except Error ModuleInstance × Registry :=
  match reg.lookup m.specifier with
  | some inst => (Except.ok inst, reg)
  | none =>
    match resolveImports opts m.specifier reg m.imports with
    | Except.error e => (Except.error e, reg)
    | Except.ok _ =>
      let inst : ModuleInstance := { instanceId := reg.nextId, exports := m.exports }
      (Except.ok inst,
        { table := (m.specifier, inst) :: reg.table
          nextId := reg.nextId + 1
          moduleState := fun j => if j = reg.nextId then 0 else reg.moduleState j })

/-- A host-visible mutation of one instantiation's module-level state (for
instance a module-level counter incremented by guest code after a load). -/
def Registry.bumpState (reg : Registry) (id : Nat) : Registry :=
  { reg with
    moduleState := fun j => if j = id then reg.moduleState j + 1 else reg.moduleState j }

/-- Reading one instantiation's module-level state through its handle. -/
def Registry.readState (reg : Registry) (inst : ModuleInstance) : Int :=
  reg.moduleState inst.instanceId

/-! ## Runtime, modelled from the spec (§4.3, §5) -/

/-- Modelled from the spec: the Runtime state machine of §4.3,
`Uninitialized -> Ready -> Terminated`. -/
inductive RuntimeState where
  | uninitialized
  | ready
  | terminated
deriving DecidableEq, Repr

/-- Modelled from the spec: `FunctionArguments` (§3) — an ordered sequence of
serialized values; order is significant and positional. -/
abbrev FunctionArguments := List JsonValue

/-- Modelled from the spec: what one guest-side run of an export would do if
left alone — how long it occupies the execution context, and the value or
guest error it would produce. The engine itself is out of scope (§1), so a
call's guest behavior is a parameter of the host-side operations. -/
structure GuestExecution where
  duration : Nat
  result : Except Error JsonValue

/-- Modelled from the spec: a `Runtime` (§3, §4.3) — one execution context
(whose host-observable footprint is `ctxOps`, the number of times the context
has been driven), a deadline, the Module Registry's resolved-module table, and
the registered host functions. -/
structure Runtime where
  opts : RuntimeOptions
  state : RuntimeState
  registry : Registry
  ctxOps : Nat
  hostFns : List String

/-- Modelled from the spec: `new(options)` (§4.3) — construction installs the
configured capability extensions and leaves the Runtime `Ready`. -/
def Runtime.new (opts : RuntimeOptions) : Runtime :=
  { opts := opts, state := RuntimeState.ready, registry := Registry.empty
    ctxOps := 0, hostFns := [] }

/-- Modelled from the spec: driving the execution context for one call under
the deadline (§5). A `Terminated` Runtime fails immediately with `Terminated`
and the context is not touched again; a run that exceeds the deadline is
forcibly interrupted, the call returns `Timeout`, and the Runtime transitions
to `Terminated`; otherwise the guest run's own result is returned. -/
def Runtime.dispatch (rt : Runtime) (exec : GuestExecution) :
    Except Error JsonValue × Runtime :=
  if rt.state = RuntimeState.terminated then
    (Except.error Error.terminated, rt)
  else if rt.opts.timeout < exec.duration then
    (Except.error Error.timeout,
      { rt with state := RuntimeState.terminated, ctxOps := rt.ctxOps + 1 })
  else
    (exec.result, { rt with ctxOps := rt.ctxOps + 1 })

/-- Modelled from the spec: `load_module` (§4.3, §4.1) — fails immediately on
a `Terminated` Runtime without touching the context; otherwise defers to the
Module Registry and instantiates in the execution context on success. -/
def Runtime.load_module (rt : Runtime) (m : Module) :
    Except Error ModuleInstance × Runtime :=
  if rt.state = RuntimeState.terminated then
    (Except.error Error.terminated, rt)
  else
    match Registry.load rt.registry rt.opts m with
    | (Except.error e, reg') => (Except.error e, { rt with registry := reg' })
    | (Except.ok inst, reg') =>
      (Except.ok inst,
        { rt with registry := reg', ctxOps := rt.ctxOps + 1, state := RuntimeState.ready })

/-- Modelled from the spec: `call(handle, export_name, arguments)` of the
Function Bridge (§4.2) — fails immediately on a `Terminated` Runtime; a name
the handle does not export produces the distinct not-found error; otherwise
the execution context is driven for the guest run under the deadline. -/
def Runtime.call_function (rt : Runtime) (inst : ModuleInstance) (name : String)
    (_args : FunctionArguments) (exec : GuestExecution) :
    Except Error JsonValue × Runtime :=
  if rt.state = RuntimeState.terminated then
    (Except.error Error.terminated, rt)
  else if inst.exports.contains name then
    rt.dispatch exec
  else
    (Except.error (Error.functionNotFound name), rt)

/-- Modelled from the spec: the default-entrypoint policy of §4.3 — an
explicit name is used as given; with no explicit name, the configured default
entrypoint is used when the module exports it, and otherwise the call fails
with `MissingEntrypoint`. -/
def Runtime.resolve_entrypoint (rt : Runtime) (inst : ModuleInstance)
    (explicit : Option String) : Except Error String :=
  match explicit with
  | some n => Except.ok n
  | none =>
    match rt.opts.default_entrypoint with
    | none => Except.error Error.missingEntrypoint
    | some n =>
      if inst.exports.contains n then Except.ok n
      else Except.error Error.missingEntrypoint

/-- Modelled from the spec: `call_entrypoint` (§4.2, §4.3) — fails immediately
on a `Terminated` Runtime; otherwise resolves the entrypoint name by the
default-entrypoint policy and invokes it as an ordinary call. -/
def Runtime.call_entrypoint (rt : Runtime) (inst : ModuleInstance)
    (explicit : Option String) (args : FunctionArguments) (exec : GuestExecution) :
    Except Error JsonValue × Runtime :=
  if rt.state = RuntimeState.terminated then
    (Except.error Error.terminated, rt)
  else
    match rt.resolve_entrypoint inst explicit with
    | Except.error e => (Except.error e, rt)
    | Except.ok n => rt.call_function inst n args exec

/-- Modelled from the spec: `register_function` (§4.2, §4.3) — fails
immediately on a `Terminated` Runtime; otherwise installs the host callable
under its name. -/
def Runtime.register_function (rt : Runtime) (name : String) :
    Except Error Unit × Runtime :=
  if rt.state = RuntimeState.terminated then
    (Except.error Error.terminated, rt)
  else
    (Except.ok (), { rt with hostFns := name :: rt.hostFns })

/-- Modelled from the spec: the anonymous single-expression module `evaluate`
compiles, runs and discards (§4.3). Its one export is the implicit default
export holding the expression's value. -/
def anonymousModule (expr : String) : Module :=
  { specifier := "<anon>"
    source := "export default " ++ expr
    imports := []
    exports := ["default"] }

/-- Modelled from the spec: `evaluate(expression)` (§4.3), written out as the
steps the call performs in sequence: the `Terminated` guard, registering the
anonymous single-expression module, and driving the execution context for the
implicit default export under the deadline. §4.3 states this is the same
execution path as `load_module` followed by invoking the implicit default
export; that reading is `Runtime.evaluateComposed` below, and the two are
proved equal. -/
def Runtime.evaluate (rt : Runtime) (expr : String) (exec : GuestExecution) :
    Except Error JsonValue × Runtime :=
  if rt.state = RuntimeState.terminated then
    (Except.error Error.terminated, rt)
  else
    match Registry.load rt.registry rt.opts (anonymousModule expr) with
    | (Except.error e, reg') => (Except.error e, { rt with registry := reg' })
    | (Except.ok inst, reg') =>
      let rt' : Runtime :=
        { rt with registry := reg', ctxOps := rt.ctxOps + 1, state := RuntimeState.ready }
      if inst.exports.contains "default" then
        if rt'.opts.timeout < exec.duration then
          (Except.error Error.timeout,
            { rt' with state := RuntimeState.terminated, ctxOps := rt'.ctxOps + 1 })
        else
          (exec.result, { rt' with ctxOps := rt'.ctxOps + 1 })
      else
        (Except.error (Error.functionNotFound "default"), rt')

/-- The spec's reading of `evaluate` (§4.3): the composition of `load_module`
on the anonymous single-expression module with a call of its implicit default
export — no separate execution path. -/
def Runtime.evaluateComposed (rt : Runtime) (expr : String) (exec : GuestExecution) :
    Except Error JsonValue × Runtime :=
  match rt.load_module (anonymousModule expr) with
  | (Except.error e, rt') => (Except.error e, rt')
  | (Except.ok inst, rt') => rt'.call_function inst "default" [] exec

/-- Modelled from the spec: using a capability extension's guest API (§6):
absent the extension, the corresponding guest API is unavailable and attempts
fail with `PermissionDenied`. -/
def Runtime.useExtensionApi (rt : Runtime) (c : Capability) : Except Error Unit :=
  if rt.opts.capabilityEnabled c then Except.ok ()
  else Except.error Error.permissionDenied

/-! ## Worker, modelled from the spec (§4.4) -/

/-- Modelled from the spec: one request value sent on the Worker's request
channel (§4.4), one constructor per public operation. -/
inductive WorkerRequest where
  | load_module (m : Module)
  | call_function (inst : ModuleInstance) (name : String)
      (args : FunctionArguments) (exec : GuestExecution)
  | register_function (name : String)
  | evaluate (expr : String) (exec : GuestExecution)

/-- The payload of a successful Worker response, per operation kind. -/
inductive WorkerOutcome where
  | handle (inst : ModuleInstance)
  | value (v : JsonValue)
  | registered

/-- Modelled from the spec: the worker thread's dispatch of one received
request to the Runtime it owns (§4.4: receive request, dispatch, respond). -/
def innerDispatch (rt : Runtime) : WorkerRequest → Except Error WorkerOutcome × Runtime
  | .load_module m =>
    match rt.load_module m with
    | (r, rt') => (r.map WorkerOutcome.handle, rt')
  | .call_function inst name args exec =>
    match rt.call_function inst name args exec with
    | (r, rt') => (r.map WorkerOutcome.value, rt')
  | .register_function name =>
    match rt.register_function name with
    | (r, rt') => (r.map (fun _ => WorkerOutcome.registered), rt')
  | .evaluate expr exec =>
    match rt.evaluate expr exec with
    | (r, rt') => (r.map WorkerOutcome.value, rt')

/-- Modelled from the spec: a `Worker` (§3, §4.4) — the one Runtime owned by
the worker thread, and whether that thread is still alive (its request channel
open); `alive = false` is what a caller observes as a closed channel. -/
structure Worker where
  rt : Runtime
  alive : Bool

/-- Modelled from the spec: one public Worker operation (§4.4): if the worker
thread has exited, the request fails with `WorkerUnavailable` and the Runtime
is not touched; otherwise the caller blocks and receives the inner Runtime's
result. The thread exits on a fatal timeout (an internal panic, the other exit
cause of §4.4, has no counterpart in a pure model), after which it never
restarts. -/
def Worker.handle (w : Worker) (req : WorkerRequest) :
    Except Error WorkerOutcome × Worker :=
  if w.alive then
    match innerDispatch w.rt req with
    | (r, rt') =>
      (r, { rt := rt'
            alive := match r with
              | Except.error Error.timeout => false
              | _ => true })
  else
    (Except.error Error.workerUnavailable, w)

/-- Runs a queue of requests through the Worker in order, collecting the
responses (§5: one request at a time, to completion, before the next). -/
def Worker.run : Worker → List WorkerRequest → List (Except Error WorkerOutcome) × Worker
  | w, [] => ([], w)
  | w, req :: reqs =>
    match w.handle req with
    | (resp, w') =>
      match w'.run reqs with
      | (resps, w'') => (resp :: resps, w'')

/-! ## Concrete sample values (used by the witness statements) -/

/-- Sample options: a 10ms deadline, default entrypoint `run`, no filesystem
or network capability extension. -/
def sampleOptions : RuntimeOptions :=
  { timeout := 10, default_entrypoint := some "run", fsEnabled := false, netEnabled := false }

/-- Sample import-free module exporting `run`. -/
def sampleModule : Module :=
  { specifier := "test.js"
    source := "export const run = () => 1;"
    imports := []
    exports := ["run"] }

/-- The instantiation a first load of `sampleModule` into an empty registry
produces. -/
def sampleInstance : ModuleInstance := { instanceId := 0, exports := ["run"] }

/-- The registry state after that first load. -/
def sampleLoadedRegistry : Registry :=
  { table := [("test.js", sampleInstance)]
    nextId := 1
    moduleState := fun j => if j = 0 then 0 else (0 : Int) }

/-- A freshly constructed Runtime over `sampleOptions`. -/
def readyRuntime : Runtime := Runtime.new sampleOptions

/-- A Runtime already in the `Terminated` state. -/
def terminatedRuntime : Runtime :=
  { Runtime.new sampleOptions with state := RuntimeState.terminated }

/-- A guest run that finishes within the deadline and yields the number 5. -/
def quickOk : GuestExecution := { duration := 1, result := Except.ok (JsonValue.number 5) }

/-- A guest run that loops without yielding far past the 10ms deadline. -/
def slowLoop : GuestExecution := { duration := 99, result := Except.ok JsonValue.null }

/-- A module whose source imports a bare specifier nothing registered. -/
def badImportModule : Module :=
  { specifier := "main.js"
    source := "import \"missing\";"
    imports := [Specifier.bare "missing"]
    exports := [] }

/-- A Worker whose thread has exited (its request channel is closed). -/
def deadWorker : Worker := { rt := readyRuntime, alive := false }

/-! ## Helper lemmas -/

/-- A serialized value always starts with a token, and never with a sequence
closer (the parser can tell an element from the end of a sequence). -/
theorem serializeValue_head (v : JsonValue) :
    ∃ t ts, serializeValue v = t :: ts ∧ t ≠ Token.rbrack := by
  cases v <;> exact ⟨_, _, rfl, by simp⟩

/-- A serialized value is never empty. -/
theorem serializeValue_length_pos (v : JsonValue) : 1 ≤ (serializeValue v).length := by
  cases v <;> simp [serializeValue]

/-- Unfolding step of `parseArray` when the stream starts with a serialized
value: the element branch is taken (never the close-of-sequence branch). -/
theorem parseArray_cons_serializeValue (f : Nat) (v : JsonValue) (l : List Token) :
    parseArray (f + 1) (serializeValue v ++ l) =
      match parseValue f (serializeValue v ++ l) with
      | some (w, rest) =>
        match parseArray f rest with
        | some (vs, rest') => some (JsonArray.cons w vs, rest')
        | none => none
      | none => none := by
  obtain ⟨t, ts, hvh, htn⟩ := serializeValue_head v
  rw [hvh, List.cons_append]
  cases t <;> first | rfl | exact absurd rfl htn

/-- Unfolding step of `parseObject` at a key token. -/
theorem parseObject_step (f : Nat) (k : String) (l : List Token) :
    parseObject (f + 1) (Token.tstr k :: l) =
      match parseValue f l with
      | some (v, rest) =>
        match parseObject f rest with
        | some (es, rest') => some (JsonObject.cons k v es, rest')
        | none => none
      | none => none := rfl

mutual

/-- The deserializer inverts the serializer on any value, leaving the rest of
the stream untouched, whenever the fuel exceeds the serialized length. -/
theorem parse_serializeValue : ∀ (v : JsonValue) (fuel : Nat) (rest : List Token),
    (serializeValue v).length < fuel →
    parseValue fuel (serializeValue v ++ rest) = some (v, rest)
  | JsonValue.null, fuel, rest, h => by
    obtain ⟨f, rfl⟩ : ∃ f, fuel = f + 1 := ⟨fuel - 1, by omega⟩
    simp [serializeValue, parseValue]
  | JsonValue.boolean b, fuel, rest, h => by
    obtain ⟨f, rfl⟩ : ∃ f, fuel = f + 1 := ⟨fuel - 1, by omega⟩
    simp [serializeValue, parseValue]
  | JsonValue.number n, fuel, rest, h => by
    obtain ⟨f, rfl⟩ : ∃ f, fuel = f + 1 := ⟨fuel - 1, by omega⟩
    simp [serializeValue, parseValue]
  | JsonValue.str s, fuel, rest, h => by
    obtain ⟨f, rfl⟩ : ∃ f, fuel = f + 1 := ⟨fuel - 1, by omega⟩
    simp [serializeValue, parseValue]
  | JsonValue.arr items, fuel, rest, h => by
    obtain ⟨f, rfl⟩ : ∃ f, fuel = f + 1 := ⟨fuel - 1, by omega⟩
    simp only [serializeValue, List.length_cons, List.length_append,
      List.length_singleton] at h
    have ih := parse_serializeArray items f rest (by omega)
    simp only [serializeValue, List.cons_append, List.append_assoc,
      List.singleton_append, List.nil_append]
    simp only [parseValue]
    rw [ih]
  | JsonValue.obj entries, fuel, rest, h => by
    obtain ⟨f, rfl⟩ : ∃ f, fuel = f + 1 := ⟨fuel - 1, by omega⟩
    simp only [serializeValue, List.length_cons, List.length_append,
      List.length_singleton] at h
    have ih := parse_serializeObject entries f rest (by omega)
    simp only [serializeValue, List.cons_append, List.append_assoc,
      List.singleton_append, List.nil_append]
    simp only [parseValue]
    rw [ih]

/-- The sequence reader inverts the element serializer, consuming the closing
delimiter. -/
theorem parse_serializeArray : ∀ (xs : JsonArray) (fuel : Nat) (rest : List Token),
    (serializeArray xs).length + 1 < fuel →
    parseArray fuel (serializeArray xs ++ Token.rbrack :: rest) = some (xs, rest)
  | JsonArray.nil, fuel, rest, h => by
    obtain ⟨f, rfl⟩ : ∃ f, fuel = f + 1 := ⟨fuel - 1, by omega⟩
    simp [serializeArray, parseArray]
  | JsonArray.cons v vs, fuel, rest, h => by
    obtain ⟨f, rfl⟩ : ∃ f, fuel = f + 1 := ⟨fuel - 1, by omega⟩
    simp only [serializeArray, List.length_append] at h
    have hv1 := serializeValue_length_pos v
    have ihv := parse_serializeValue v f (serializeArray vs ++ Token.rbrack :: rest)
      (by omega)
    have ihvs := parse_serializeArray vs f rest (by omega)
    simp only [serializeArray, List.append_assoc]
    rw [parseArray_cons_serializeValue, ihv]
    simp [ihvs]

/-- The mapping reader inverts the entry serializer, consuming the closing
delimiter. -/
theorem parse_serializeObject : ∀ (es : JsonObject) (fuel : Nat) (rest : List Token),
    (serializeObject es).length + 1 < fuel →
    parseObject fuel (serializeObject es ++ Token.rbrace :: rest) = some (es, rest)
  | JsonObject.nil, fuel, rest, h => by
    obtain ⟨f, rfl⟩ : ∃ f, fuel = f + 1 := ⟨fuel - 1, by omega⟩
    simp [serializeObject, parseObject]
  | JsonObject.cons k v es, fuel, rest, h => by
    obtain ⟨f, rfl⟩ : ∃ f, fuel = f + 1 := ⟨fuel - 1, by omega⟩
    simp only [serializeObject, List.length_cons, List.length_append] at h
    have hv1 := serializeValue_length_pos v
    have ihv := parse_serializeValue v f (serializeObject es ++ Token.rbrace :: rest)
      (by omega)
    have ihes := parse_serializeObject es f rest (by omega)
    simp only [serializeObject, List.cons_append, List.append_assoc]
    rw [parseObject_step, ihv]
    simp [ihes]

end

/-- A Worker whose thread has exited answers every queued request with
`WorkerUnavailable` and never changes again (no automatic restart). -/
theorem Worker.run_dead (w : Worker) (hw : w.alive = false) :
    ∀ reqs : List WorkerRequest,
      (w.run reqs).1 = reqs.map (fun _ => Except.error Error.workerUnavailable) ∧
      (w.run reqs).2 = w := by
  intro reqs
  induction reqs with
  | nil => exact ⟨rfl, rfl⟩
  | cons req reqs ih =>
    simp only [Worker.run, Worker.handle, hw, Bool.false_eq_true, if_false, List.map_cons]
    exact ⟨by rw [ih.1], ih.2⟩

/-! ## Claim theorems -/

/-- C6: the websocket extension's per-connection permission check
(`check_net_url` of the `WebSocketPermissions` impl for `Permissions`) returns
`Ok` for every URL and every API name, leaving the permission state untouched:
it never denies a network URL, so the extension performs no per-URL network
filtering once installed. -/
theorem check_net_url_never_denies (p : Permissions) (url api_name : String) :
    Permissions.check_net_url p url api_name = (Except.ok (), p) := rfl

/-- C10: for every `WebSocketOptions` value, `extensions` and
`snapshot_extensions` each return exactly two extensions with `deno_websocket`
preceding `init_websocket`, and both build `deno_websocket` from the same
three option fields (`user_agent`, `root_cert_store_provider`,
`unsafely_ignore_certificate_errors`) in the same order. -/
theorem websocket_extensions_structure (o : WebSocketOptions) :
    (extensions o).length = 2 ∧
    (snapshot_extensions o).length = 2 ∧
    (extensions o)[0]? = some (Extension.deno_websocket InitMode.ops_and_esm
      o.user_agent o.root_cert_store_provider o.unsafely_ignore_certificate_errors) ∧
    (extensions o)[1]? = some (Extension.init_websocket InitMode.ops_and_esm) ∧
    (snapshot_extensions o)[0]? = some (Extension.deno_websocket InitMode.ops_only
      o.user_agent o.root_cert_store_provider o.unsafely_ignore_certificate_errors) ∧
    (snapshot_extensions o)[1]? = some (Extension.init_websocket InitMode.ops_only) ∧
    ((extensions o)[0]?.bind Extension.wsArgs)
      = some (o.user_agent, o.root_cert_store_provider, o.unsafely_ignore_certificate_errors) ∧
    ((extensions o)[0]?.bind Extension.wsArgs)
      = ((snapshot_extensions o)[0]?.bind Extension.wsArgs) :=
  ⟨rfl, rfl, rfl, rfl, rfl, rfl, rfl, rfl⟩

/-- C1: a call whose guest run exceeds the Runtime's deadline returns a
`Timeout` error and leaves the Runtime `Terminated`; and every operation
(`load_module`, `call_function`, `call_entrypoint`, `evaluate`,
`register_function`) attempted on a `Terminated` Runtime fails immediately
with a `Terminated` error, the Runtime — execution context footprint
included — left completely untouched. -/
theorem timeout_terminates_and_terminated_rejects
    (rt : Runtime) (m : Module) (inst : ModuleInstance) (name : String)
    (args : FunctionArguments) (expr : String) (exec : GuestExecution)
    (explicit : Option String) :
    (rt.state ≠ RuntimeState.terminated → inst.exports.contains name = true →
      rt.opts.timeout < exec.duration →
      (rt.call_function inst name args exec).1 = Except.error Error.timeout ∧
      (rt.call_function inst name args exec).2.state = RuntimeState.terminated) ∧
    (rt.state = RuntimeState.terminated →
      rt.load_module m = (Except.error Error.terminated, rt) ∧
      rt.call_function inst name args exec = (Except.error Error.terminated, rt) ∧
      rt.call_entrypoint inst explicit args exec = (Except.error Error.terminated, rt) ∧
      rt.evaluate expr exec = (Except.error Error.terminated, rt) ∧
      rt.register_function name = (Except.error Error.terminated, rt)) := by
  constructor
  · intro hs hc ht
    have hmem : name ∈ inst.exports := by simpa using hc
    simp [Runtime.call_function, Runtime.dispatch, hs, hmem, ht]
  · intro hs
    simp [Runtime.load_module, Runtime.call_function, Runtime.call_entrypoint,
      Runtime.evaluate, Runtime.register_function, hs]

/-- Witness for C1 at concrete inputs: a terminated Runtime rejects
`load_module` with `Terminated` untouched, and a ready Runtime whose guest run
loops for 99ms against a 10ms deadline gets `Timeout`. -/
theorem timeout_terminates_and_terminated_rejects_witness :
    terminatedRuntime.load_module sampleModule
      = (Except.error Error.terminated, terminatedRuntime) ∧
    (readyRuntime.call_function sampleInstance "run" [] slowLoop).1
      = Except.error Error.timeout ∧
    (readyRuntime.call_function sampleInstance "run" [] slowLoop).2.state
      = RuntimeState.terminated := by
  refine ⟨?_, ?_, ?_⟩
  · exact ((timeout_terminates_and_terminated_rejects terminatedRuntime sampleModule
      sampleInstance "run" [] "1" slowLoop none).2 rfl).1
  · exact ((timeout_terminates_and_terminated_rejects readyRuntime sampleModule
      sampleInstance "run" [] "1" slowLoop none).1 (by decide) (by decide) (by decide)).1
  · exact ((timeout_terminates_and_terminated_rejects readyRuntime sampleModule
      sampleInstance "run" [] "1" slowLoop none).1 (by decide) (by decide) (by decide)).2

/-- C2: loading the same resolved specifier a second time in the same Runtime
returns the existing instantiation and changes nothing — in particular,
module-level state mutated after the first load (here: a counter bumped once)
is still observed, not reset, through the handle the second load returns. -/
theorem module_load_memoized (reg : Registry) (opts : RuntimeOptions) (m : Module)
    (h1 : ModuleInstance) (reg1 : Registry)
    (hload : Registry.load reg opts m = (Except.ok h1, reg1)) :
    Registry.load (reg1.bumpState h1.instanceId) opts m
      = (Except.ok h1, reg1.bumpState h1.instanceId) ∧
    (Registry.load (reg1.bumpState h1.instanceId) opts m).2.readState h1
      = reg1.readState h1 + 1 := by
  have hlook1 : reg1.lookup m.specifier = some h1 := by
    unfold Registry.load at hload
    cases hcase : reg.lookup m.specifier with
    | some inst =>
      rw [hcase] at hload
      obtain ⟨h₁, h₂⟩ := Prod.mk.injEq .. ▸ hload
      cases hload
      exact hcase
    | none =>
      rw [hcase] at hload
      cases hres : resolveImports opts m.specifier reg m.imports with
      | error e => rw [hres] at hload; cases hload
      | ok cs =>
        rw [hres] at hload
        cases hload
        simp [Registry.lookup, List.find?]
  have hlook2 : (reg1.bumpState h1.instanceId).lookup m.specifier = some h1 := hlook1
  have hsecond : Registry.load (reg1.bumpState h1.instanceId) opts m
      = (Except.ok h1, reg1.bumpState h1.instanceId) := by
    unfold Registry.load
    rw [hlook2]
  refine ⟨hsecond, ?_⟩
  rw [hsecond]
  simp [Registry.readState, Registry.bumpState]

/-- Witness for C2 at concrete inputs: `sampleModule` loaded into the empty
registry, its module-level counter bumped, then loaded again — the same
instantiation comes back and the counter reads 1, not 0. -/
theorem module_load_memoized_witness :
    Registry.load (sampleLoadedRegistry.bumpState sampleInstance.instanceId)
        sampleOptions sampleModule
      = (Except.ok sampleInstance, sampleLoadedRegistry.bumpState sampleInstance.instanceId) ∧
    (Registry.load (sampleLoadedRegistry.bumpState sampleInstance.instanceId)
        sampleOptions sampleModule).2.readState sampleInstance
      = sampleLoadedRegistry.readState sampleInstance + 1 :=
  module_load_memoized Registry.empty sampleOptions sampleModule sampleInstance
    sampleLoadedRegistry rfl

/-- C4: a call with no explicit function name uses the configured default
entrypoint when the module exports it (and is then an ordinary call of that
export, which can succeed); with no default configured, or a default the
module does not export, the call fails with `MissingEntrypoint`. -/
theorem entrypoint_fallback (rt : Runtime) (inst : ModuleInstance)
    (args : FunctionArguments) (exec : GuestExecution)
    (hs : rt.state ≠ RuntimeState.terminated) :
    (∀ n, rt.opts.default_entrypoint = some n → inst.exports.contains n = true →
      rt.call_entrypoint inst none args exec = rt.call_function inst n args exec) ∧
    (rt.opts.default_entrypoint = none →
      rt.call_entrypoint inst none args exec = (Except.error Error.missingEntrypoint, rt)) ∧
    (∀ n, rt.opts.default_entrypoint = some n → inst.exports.contains n = false →
      rt.call_entrypoint inst none args exec = (Except.error Error.missingEntrypoint, rt)) := by
  refine ⟨?_, ?_, ?_⟩
  · intro n hdef hexp
    have hmem : n ∈ inst.exports := by simpa using hexp
    simp [Runtime.call_entrypoint, Runtime.resolve_entrypoint, hs, hdef, hmem]
  · intro hdef
    simp [Runtime.call_entrypoint, Runtime.resolve_entrypoint, hs, hdef]
  · intro n hdef hexp
    have hmem : n ∉ inst.exports := by simpa using hexp
    simp [Runtime.call_entrypoint, Runtime.resolve_entrypoint, hs, hdef, hmem]

/-- Witness for C4 at concrete inputs: the Runtime configured with default
entrypoint `run` and a module exporting `run` succeeds on a nameless
`call_entrypoint`, returning the guest value 5. -/
theorem entrypoint_fallback_witness :
    readyRuntime.call_entrypoint sampleInstance none [] quickOk
      = readyRuntime.call_function sampleInstance "run" [] quickOk ∧
    (readyRuntime.call_entrypoint sampleInstance none [] quickOk).1
      = Except.ok (JsonValue.number 5) := by
  have h := entrypoint_fallback readyRuntime sampleInstance [] quickOk (by decide)
  exact ⟨h.1 "run" rfl (by decide), rfl⟩

/-- C5: on a Runtime constructed without a given capability extension
(filesystem or network), every import specifier gated on that capability fails
to resolve with `PermissionDenied`, and every use of that extension's guest
API fails with `PermissionDenied`. -/
theorem missing_capability_denied (rt : Runtime) (c : Capability)
    (hc : rt.opts.capabilityEnabled c = false) :
    (∀ s : Specifier, s.capability = some c →
      ∀ base, resolveSpecifier rt.opts base rt.registry s
        = Except.error Error.permissionDenied) ∧
    rt.useExtensionApi c = Except.error Error.permissionDenied := by
  constructor
  · intro s hsc base
    cases s with
    | relative p => simp [Specifier.capability] at hsc
    | bare n => simp [Specifier.capability] at hsc
    | fsPath p =>
      simp only [Specifier.capability, Option.some.injEq] at hsc
      subst hsc
      simp only [RuntimeOptions.capabilityEnabled] at hc
      simp [resolveSpecifier, hc]
    | netUrl u =>
      simp only [Specifier.capability, Option.some.injEq] at hsc
      subst hsc
      simp only [RuntimeOptions.capabilityEnabled] at hc
      simp [resolveSpecifier, hc]
  · simp [Runtime.useExtensionApi, hc]

/-- Witness for C5 at concrete inputs: the sample Runtime has no filesystem
extension, so a filesystem import and the filesystem guest API both fail with
`PermissionDenied`. -/
theorem missing_capability_denied_witness :
    resolveSpecifier readyRuntime.opts "main.js" readyRuntime.registry
        (Specifier.fsPath "x.js") = Except.error Error.permissionDenied ∧
    readyRuntime.useExtensionApi Capability.filesystem
      = Except.error Error.permissionDenied := by
  have h := missing_capability_denied readyRuntime Capability.filesystem rfl
  exact ⟨h.1 (Specifier.fsPath "x.js") rfl "main.js", h.2⟩

/-- C8: loading a module whose source imports an unresolvable specifier fails
with `ModuleNotFound`, the importing module is not partially registered (the
resolved-module table is returned unchanged), and the call yields exactly one
error and no partial result. -/
theorem load_unresolvable_import (reg : Registry) (opts : RuntimeOptions)
    (m : Module) (spec : String)
    (hfresh : reg.lookup m.specifier = none)
    (hbad : resolveImports opts m.specifier reg m.imports
      = Except.error (Error.moduleNotFound spec)) :
    Registry.load reg opts m = (Except.error (Error.moduleNotFound spec), reg) ∧
    (Registry.load reg opts m).2.table = reg.table := by
  have h : Registry.load reg opts m = (Except.error (Error.moduleNotFound spec), reg) := by
    unfold Registry.load
    rw [hfresh, hbad]
  exact ⟨h, by rw [h]⟩

/-- Witness for C8 at concrete inputs: loading `badImportModule` (which
imports the unregistered bare specifier `missing`) into the empty registry
fails with `ModuleNotFound "missing"` and leaves the registry empty. -/
theorem load_unresolvable_import_witness :
    Registry.load Registry.empty sampleOptions badImportModule
      = (Except.error (Error.moduleNotFound "missing"), Registry.empty) ∧
    (Registry.load Registry.empty sampleOptions badImportModule).2.table
      = Registry.empty.table :=
  load_unresolvable_import Registry.empty sampleOptions badImportModule "missing" rfl rfl

/-- C9: a Worker operation on a live worker thread hands back the inner
Runtime's result (and the thread's Runtime advances accordingly); once the
worker thread has exited (observed as a closed channel), that operation and
every subsequently queued request fail with `WorkerUnavailable`, the worker
never restarting. -/
theorem worker_ops_and_unavailability (w : Worker) (req : WorkerRequest)
    (reqs : List WorkerRequest) :
    (w.alive = true →
      (w.handle req).1 = (innerDispatch w.rt req).1 ∧
      (w.handle req).2.rt = (innerDispatch w.rt req).2) ∧
    (w.alive = false →
      w.handle req = (Except.error Error.workerUnavailable, w) ∧
      (w.run reqs).1 = reqs.map (fun _ => Except.error Error.workerUnavailable) ∧
      (w.run reqs).2 = w) := by
  constructor
  · intro ha
    rcases hd : innerDispatch w.rt req with ⟨r, rt'⟩
    simp [Worker.handle, ha, hd]
  · intro ha
    exact ⟨by simp [Worker.handle, ha], (Worker.run_dead w ha reqs).1,
      (Worker.run_dead w ha reqs).2⟩

/-- C3: every value expressible in the boundary format, serialized host to
guest, passed through a guest identity export, and deserialized guest to
host, comes back equal to the original. -/
theorem value_bridge_round_trip (v : JsonValue) :
    deserialize (guestIdentity (serializeValue v)) = some v := by
  have h := parse_serializeValue v ((serializeValue v).length + 1) [] (by omega)
  rw [List.append_nil] at h
  unfold deserialize guestIdentity
  rw [h]

/-- C7: for every expression, `evaluate` equals the composition of
`load_module` on the anonymous single-expression module with a call of its
implicit default export — same value or error, same resulting Runtime, no
separate execution path. -/
theorem evaluate_is_composition (rt : Runtime) (expr : String) (exec : GuestExecution) :
    rt.evaluate expr exec = rt.evaluateComposed expr exec := by
  by_cases hterm : rt.state = RuntimeState.terminated
  · simp [Runtime.evaluate, Runtime.evaluateComposed, Runtime.load_module, hterm]
  · rcases hload : Registry.load rt.registry rt.opts (anonymousModule expr) with ⟨r, reg'⟩
    cases r with
    | error e =>
      simp [Runtime.evaluate, Runtime.evaluateComposed, Runtime.load_module, hterm, hload]
    | ok inst =>
      simp [Runtime.evaluate, Runtime.evaluateComposed, Runtime.load_module, hterm, hload,
        Runtime.call_function, Runtime.dispatch]

/-- Witness for C9 at concrete inputs: a dead Worker rejects a request with
`WorkerUnavailable` unchanged, and a queue of two later requests is answered
with `WorkerUnavailable` twice. -/
theorem worker_ops_and_unavailability_witness :
    deadWorker.handle (WorkerRequest.register_function "f")
      = (Except.error Error.workerUnavailable, deadWorker) ∧
    (deadWorker.run [WorkerRequest.evaluate "1" quickOk,
        WorkerRequest.register_function "g"]).1
      = [Except.error Error.workerUnavailable, Except.error Error.workerUnavailable] := by
  have h := (worker_ops_and_unavailability deadWorker (WorkerRequest.register_function "f")
    [WorkerRequest.evaluate "1" quickOk, WorkerRequest.register_function "g"]).2 rfl
  exact ⟨h.1, by rw [h.2.1]; exact rfl⟩

end Rustyscript
